import Mathlib

/-!
Verification development for the page-render core of a Notion-to-Astro loader
(`render.js`): the block materializer `listBlocks`, the processor builder
`buildProcessor` with its table-of-contents capture, the outline extractor
`extractTocHeadings`, and the orchestrating `NotionPageRenderer.render`.

The JavaScript source is shallowly embedded: async generators become pure
recursive functions threading their observable traces (image paths pushed,
asset-resolver invocations) explicitly; thrown exceptions become `Except`;
the external collaborators (the Notion listing API, the asset resolver
`fileToImageAsset`, the downstream rehype pipeline) are parameters at their
interface boundary.
-/

namespace NotionRender

/-- A tagged Notion media source: `external` or (uploaded) `file`.
Mirrors `block.image.type` / `block.video.type` in the source. -/
inductive MediaTag where
  | external
  | file
  deriving Repr, DecidableEq

/-- The source-side payload of an image or video block: the tag, both candidate
URLs (`external.url`, `file.url`) and the caption (kept opaque as a string). -/
structure MediaPayload where
  tag : MediaTag
  externalUrl : String
  fileUrl : String
  caption : String
  deriving Repr, DecidableEq

/-- Discriminated kind of a source block, with its kind-specific payload.
Non-media payloads are opaque. -/
inductive BlockKind where
  | image (m : MediaPayload)
  | video (m : MediaPayload)
  | other (payload : String)
  deriving Repr, DecidableEq

/-- One entry of the paginated children listing for a block, as seen by the
`for await` loop of `listBlocks`:
* `placeholder` — an object for which `isFullBlock` is false (skipped);
* `failHere`    — the paginated iterator throws at this point
  (transport / pagination failure, propagates to the caller);
* `node`        — a full block: kind, `has_children` flag, and the children
  that the recursive `listBlocks` call would list for its id (only consulted
  when `has_children` is true, exactly as in the source). -/
inductive RawBlock where
  | placeholder
  | failHere (msg : String)
  | node (kind : BlockKind) (hasChildren : Bool) (children : List RawBlock)
  deriving Repr

/-- The normalized media reference yielded for image/video blocks:
`{ type, [type]: url, caption }` in the source. -/
structure NormMedia where
  tag : MediaTag
  url : String
  caption : String
  deriving Repr, DecidableEq

/-- A materialized block as yielded by `listBlocks`. For image and video
blocks the source *replaces* the payload object by the normalized media
reference, so they carry no child list; `other` blocks keep their payload and
the optionally attached children (`block[block.type].children`). -/
inductive Block where
  | image (m : NormMedia)
  | video (m : NormMedia)
  | other (payload : String) (children : Option (List Block))
  deriving Repr

/-- The child sequence attached to a yielded block, if any: `other` blocks may
carry one; the rewritten payload of media blocks never does. -/
def Block.childrenOf : Block → Option (List Block)
  | .image _ => none
  | .video _ => none
  | .other _ cs => cs

/-- The inline conditional of the video rewrite in `listBlocks`:
`block.video.type === "external" ? block.video.external.url : block.video.file.url`. -/
def mediaUrl (m : MediaPayload) : String :=
  match m.tag with
  | .external => m.externalUrl
  | .file => m.fileUrl

/-- Modelled from the spec: `fileToUrl` (defined in `format.js`, which is not
present under `src/`) returns the media file object's original remote URL —
the fallback remote reference used when asset resolution fails. -/
def fileToUrl (m : MediaPayload) : String := mediaUrl m

/-- Combined observable result of (a prefix of) a `listBlocks` run: image paths
pushed onto `#imagePaths` in push order, payloads handed to the asset resolver
in call order, and the yielded blocks or the raised listing error. -/
abbrev MatRes := List String × List MediaPayload × Except String (List Block)

/-- The body of one iteration of the `for await` loop in `listBlocks` for a
full block, given the results of the two recursive calls (children listing and
the remainder of the loop). The child listing result is consulted only when
`has_children` is set, exactly as in the source; children are materialized
*before* the block's own media rewrite. For an image block, `#fetchImage`
either resolves (pushing the local path) or falls back to `fileToUrl`; note
that the media rewrite replaces the payload object wholesale, so any child
list attached to `block[block.type]` is dropped for media blocks. -/
def nodeStep (resolver : MediaPayload → Option String) (kind : BlockKind) (hc : Bool)
    (childRes restRes : MatRes) : MatRes :=
  let cr : List String × List MediaPayload × Except String (Option (List Block)) :=
    if hc then
      match childRes with
      | (p, c, .error e) => (p, c, .error e)
      | (p, c, .ok bs) => (p, c, .ok (some bs))
    else ([], [], .ok none)
  match cr with
  | (p, c, .error e) => (p, c, .error e)
  | (p, c, .ok kids) =>
    let own : List String × List MediaPayload × Block :=
      match kind with
      | .image m =>
        match resolver m with
        | some src => ([src], [m], .image ⟨m.tag, src, m.caption⟩)
        | none => ([], [m], .image ⟨m.tag, fileToUrl m, m.caption⟩)
      | .video m => ([], [], .video ⟨m.tag, mediaUrl m, m.caption⟩)
      | .other s => ([], [], .other s kids)
    match own, restRes with
    | (ps, cs2, _), (p2, c2, .error e) => (p ++ ps ++ p2, c ++ cs2 ++ c2, .error e)
    | (ps, cs2, b), (p2, c2, .ok bs) => (p ++ ps ++ p2, c ++ cs2 ++ c2, .ok (b :: bs))

/-- The drain of `listBlocks` by `awaitAll`, as `render` performs it: placeholder
entries are skipped (`isFullBlock` false), a listing failure aborts the loop
keeping the traces accumulated so far (the pushes already happened on the
renderer instance), and each full block goes through `nodeStep`. -/
def matList (resolver : MediaPayload → Option String) : List RawBlock → MatRes
  | [] => ([], [], .ok [])
  | .placeholder :: rest => matList resolver rest
  | .failHere msg :: _ => ([], [], .error msg)
  | .node kind hc cs :: rest =>
    nodeStep resolver kind hc (matList resolver cs) (matList resolver rest)

/-! ## Outline extractor (`extractTocHeadings`) -/

/-- A node of the captured rehype navigation tree, as `extractTocHeadings`
inspects it: elements carry a tag name, an optional `properties.href`, and
children; text nodes carry a `value`. -/
inductive HNode where
  | element (tagName : String) (href : Option String) (children : List HNode)
  | text (value : String)
  deriving Repr

/-- One heading record: `{ depth, text, slug }`. -/
structure Heading where
  depth : Nat
  text : String
  slug : String
  deriving Repr, DecidableEq

/-- How `extractTocHeadings` can throw:
* `shapeErr` — the explicit `Expected nav, got ...` structure check;
* `jsTypeError` — an implicit JavaScript `TypeError` from reading a property
  of `undefined` (e.g. `toc.children[0]` missing, a list item with no link). -/
inductive TocErr where
  | shapeErr (msg : String)
  | jsTypeError
  deriving Repr, DecidableEq

mutual

/-- The inner `listElementToTree(ol, depth)`: flat-maps over `ol.children`.
Applied to a
text node it reads `.children` of something without that property
(`undefined.flatMap`), a `TypeError`. -/
def listToTree (ol : HNode) (depth : Nat) : Except TocErr (List Heading) :=
  match ol with
  | .text _ => .error .jsTypeError
  | .element _ _ cs => itemsToTree cs depth

/-- The `flatMap` over the list items of one list, concatenating each item's
headings in order. -/
def itemsToTree (lis : List HNode) (depth : Nat) : Except TocErr (List Heading) :=
  match lis with
  | [] => .ok []
  | li :: rest => do
    let hs ← itemToTree li depth
    let tl ← itemsToTree rest depth
    .ok (hs ++ tl)

/-- The body of the flat-map callback: destructure `li.children` into
`[_link, subList]`, build the current heading from the link's first child's
text value and `href.slice(1)`, then, if a second child exists, recurse into
it at `depth + 1` and append. Reading `li.children` of a text node, a missing
link, a text-node link, a link with no first child, or a missing `href` is a
`TypeError`; a first link child that is an element reads `.value` as the
undefined value (modelled by the marker string `"undefined"`, unused by any
theorem below). -/
def itemToTree (li : HNode) (depth : Nat) : Except TocErr (List Heading) :=
  match li with
  | .text _ => .error .jsTypeError
  | .element _ _ [] => .error .jsTypeError
  | .element _ _ (link :: rest) =>
    match link with
    | .text _ => .error .jsTypeError
    | .element _ href lcs =>
      match lcs.head? with
      | none => .error .jsTypeError
      | some c0 =>
        let textVal : String :=
          match c0 with
          | .text v => v
          | .element _ _ _ => "undefined"
        match href with
        | none => .error .jsTypeError
        | some h =>
          let heading : Heading := ⟨depth, textVal, h.drop 1⟩
          match rest with
          | [] => .ok [heading]
          | sl :: _ => do
            let hs ← listToTree sl (depth + 1)
            .ok (heading :: hs)

end

/-- The outline extractor `extractTocHeadings(toc)`: the explicit root check
(`tagName !== "nav"`
throws `Expected nav, got ...`; a text node has no `tagName`, so the check
reads `undefined` and throws too), then `listElementToTree(toc.children[0], 0)`
— only the *first* child is ever consulted. -/
def extractTocHeadings (toc : HNode) : Except TocErr (List Heading) :=
  match toc with
  | .text _ => .error (.shapeErr "Expected nav, got undefined")
  | .element tag _ cs =>
    if tag = "nav" then
      match cs.head? with
      | none => .error .jsTypeError
      | some ol => listToTree ol 0
    else .error (.shapeErr ("Expected nav, got " ++ tag))

/-- The root tag of a captured tree (`tagName`; text nodes have none). -/
def rootTag : HNode → Option String
  | .element t _ _ => some t
  | .text _ => none

/-! ## Processor builder (`buildProcessor`) and its capture cell

`buildProcessor` allocates one `let headings = []` cell whose lifetime is the
*built processor*, not one `process` call: the `customizeTOC` hook closes over
it, and every `process` call first runs the pipeline (which overwrites the
cell with the outline of that call's block tree) and then, after resuming from
`await`, reads the cell into its result. Two concurrent calls sharing the
built processor therefore interleave as: each call has a `run` event (its
pipeline run writes the cell) followed later by a `ret` event (it reads the
cell); between the two events of one call the other call's events may fire. -/

/-- Scheduler events of two concurrent `process` calls (A and B) on one built
processor. -/
inductive PStep where
  | runA
  | retA
  | runB
  | retB
  deriving Repr, DecidableEq

/-- State of the shared capture machinery: the single `headings` cell closed
over by `customizeTOC`, plus each call's returned outline once it resumed. -/
structure PState where
  cell : List Heading
  resA : Option (List Heading)
  resB : Option (List Heading)
  deriving Repr, DecidableEq

/-- One scheduler event: a `run` overwrites the shared cell with the outline
the toc stage computes for that call's own block tree (`hA` resp. `hB`); a
`ret` reads the shared cell into that call's result. -/
def pstep (hA hB : List Heading) : PState → PStep → PState
  | s, .runA => { s with cell := hA }
  | s, .runB => { s with cell := hB }
  | s, .retA => { s with resA := some s.cell }
  | s, .retB => { s with resB := some s.cell }

/-- Execute a schedule of events of the two calls against the shared cell,
which `buildProcessor` initialized to `[]`. -/
def pexec (hA hB : List Heading) (sched : List PStep) : PState :=
  sched.foldl (pstep hA hB) ⟨[], none, none⟩

/-- A legal interleaving of the two calls: each event fires exactly once and
each call runs its pipeline before it returns. -/
def validSched (sched : List PStep) : Bool :=
  sched.count .runA = 1 && sched.count .retA = 1 &&
  sched.count .runB = 1 && sched.count .retB = 1 &&
  sched.indexOf .runA < sched.indexOf .retA &&
  sched.indexOf .runB < sched.indexOf .retB

/-! ## Page renderer (`NotionPageRenderer`) -/

/-- The rendered output `{ html, metadata: { headings, imagePaths } }`. -/
structure Rendered where
  html : String
  headings : List Heading
  imagePaths : List String
  deriving Repr, DecidableEq

/-- One logger line: the forked logger's label and the message. -/
structure LogEntry where
  label : String
  message : String
  deriving Repr, DecidableEq

/-- The label of the per-page forked logger
(`page ${page.id} (Name ${title})`). -/
def pageLabel (pageId pageName : String) : String :=
  "page " ++ pageId ++ " (Name " ++ pageName ++ ")"

/-- The embedding of `NotionPageRenderer.render`. Here `st` is the current content of the
instance field `#imagePaths` (the resolver pushes append to it);
`processFn` is the supplied pipeline process function, which may itself throw
(e.g. the structure check of `extractTocHeadings`). The `try` block covers the
materialization, the process call and the result construction: any error is
caught, logged on the page's forked logger, and turned into `none`. Returns
(result, final `#imagePaths` content, log lines). -/
def render (resolver : MediaPayload → Option String) (pageId pageName : String)
    (processFn : List Block → Except String (String × List Heading))
    (entries : List RawBlock) (st : List String) :
    Option Rendered × List String × List LogEntry :=
  let lbl := pageLabel pageId pageName
  match matList resolver entries with
  | (p, _, .error e) =>
    (none, st ++ p, [⟨lbl, "Rendering"⟩, ⟨lbl, "Failed to render: " ++ e⟩])
  | (p, _, .ok blocks) =>
    match processFn blocks with
    | .error e =>
      (none, st ++ p, [⟨lbl, "Rendering"⟩, ⟨lbl, "Failed to render: " ++ e⟩])
    | .ok (html, hds) =>
      (some ⟨html, hds, st ++ p⟩, st ++ p, [⟨lbl, "Rendering"⟩, ⟨lbl, "Rendered"⟩])

/-! ## Pure characterizations of a materialization run

The following functions and predicates re-describe, by plain recursion over
the input tree, what one `listBlocks` drain observes. They follow the same
traversal the source performs: children are consulted only under
`has_children`, placeholders are skipped, a block's children come before its
own media handling. -/

/-- Whether the traversed part of the listing contains no failure point (the
drain completes and `render`'s `try` block proceeds to the process call). -/
def noFailB : List RawBlock → Bool
  | [] => true
  | .placeholder :: rest => noFailB rest
  | .failHere _ :: _ => false
  | .node _ hc cs :: rest => (!hc || noFailB cs) && noFailB rest

/-- The payloads handed to the asset resolver, in the order the source calls
it: children of a block first (when `has_children`), then the block's own
payload when it is an image. -/
def callsOf : List RawBlock → List MediaPayload
  | [] => []
  | .placeholder :: rest => callsOf rest
  | .failHere _ :: _ => []
  | .node kind hc cs :: rest =>
    (if hc then callsOf cs else []) ++
      (match kind with
       | .image m => [m]
       | _ => []) ++ callsOf rest

/-- The image payloads in depth-first *pre-order* document order: a block's
own image before anything inside its children. -/
def preCallsOf : List RawBlock → List MediaPayload
  | [] => []
  | .placeholder :: rest => preCallsOf rest
  | .failHere _ :: _ => []
  | .node kind hc cs :: rest =>
    (match kind with
     | .image m => [m]
     | _ => []) ++ (if hc then preCallsOf cs else []) ++ preCallsOf rest

/-- The block tree `listBlocks` yields on a failure-free listing, as a pure
rewrite: image payloads get the resolved local reference or the `fileToUrl`
fallback, video payloads are normalized from the source fields, `other` blocks
keep their payload and get their (materialized) children attached exactly when
`has_children` is set; media rewrites carry no children. -/
def rewriteList (resolver : MediaPayload → Option String) : List RawBlock → List Block
  | [] => []
  | .placeholder :: rest => rewriteList resolver rest
  | .failHere _ :: rest => rewriteList resolver rest
  | .node kind hc cs :: rest =>
    (match kind with
     | .image m => Block.image ⟨m.tag, ((resolver m).getD (fileToUrl m)), m.caption⟩
     | .video m => Block.video ⟨m.tag, mediaUrl m, m.caption⟩
     | .other s => Block.other s (if hc then some (rewriteList resolver cs) else none))
      :: rewriteList resolver rest

/-- No traversed block is an image. -/
def noImagesB : List RawBlock → Bool
  | [] => true
  | .placeholder :: rest => noImagesB rest
  | .failHere _ :: rest => noImagesB rest
  | .node kind hc cs :: rest =>
    (match kind with
     | .image _ => false
     | _ => true) && (!hc || noImagesB cs) && noImagesB rest

/-- No traversed block is a media block (neither image nor video). -/
def noMediaB : List RawBlock → Bool
  | [] => true
  | .placeholder :: rest => noMediaB rest
  | .failHere _ :: rest => noMediaB rest
  | .node kind hc cs :: rest =>
    (match kind with
     | .other _ => true
     | _ => false) && (!hc || noMediaB cs) && noMediaB rest

/-- No traversed image block declares children. -/
def imagesChildlessB : List RawBlock → Bool
  | [] => true
  | .placeholder :: rest => imagesChildlessB rest
  | .failHere _ :: rest => imagesChildlessB rest
  | .node kind hc cs :: rest =>
    (match kind with
     | .image _ => !hc
     | _ => !hc || imagesChildlessB cs) && imagesChildlessB rest

/-- Every entry of a listing is a placeholder (filtered out by
`isFullBlock`). -/
def allPlaceholderB : List RawBlock → Bool
  | [] => true
  | .placeholder :: rest => allPlaceholderB rest
  | _ => false

/-! ## Spec-side description of the outline walk

`TocItem` is an abstract well-formed navigation tree — each list item a
(link text, slug, optional nested list) triple. `encodeItem` renders it as the
rehype element shape `rehype-toc` produces (`li > a[href="#slug"] > text`,
optional nested `ol`); `tocSpecItems` is the walk as §4.3 of the spec words
it, for comparison with the code's `extractTocHeadings`. -/

/-- An abstract navigation list item: link text, slug, optional nested
list. -/
inductive TocItem where
  | mk (text slug : String) (sub : Option (List TocItem))

mutual

/-- Encode an abstract item as the captured rehype shape:
`li` wrapping a link (`href = "#" ++ slug`, one text child) and, when a nested
list is present, one nested `ol`. -/
def encodeItem : TocItem → HNode
  | .mk t s none => .element "li" none [.element "a" (some ("#" ++ s)) [.text t]]
  | .mk t s (some its) =>
    .element "li" none
      [.element "a" (some ("#" ++ s)) [.text t], .element "ol" none (encodeItems its)]

/-- Encode a list of abstract items. -/
def encodeItems : List TocItem → List HNode
  | [] => []
  | i :: r => encodeItem i :: encodeItems r

end

/-- A whole captured tree of the expected shape: a `nav` wrapping exactly one
top-level list. -/
def encodeNav (its : List TocItem) : HNode :=
  .element "nav" none [.element "ol" none (encodeItems its)]

mutual

/-- Spec-side walk of one item (§4.3): the item contributes one heading record
at the current depth from its link text and slug; a nested list is extracted
at depth + 1 and appended right after it (pre-order). -/
def tocSpecItem : TocItem → Nat → List Heading
  | .mk t s none, d => [⟨d, t, s⟩]
  | .mk t s (some its), d => ⟨d, t, s⟩ :: tocSpecItems its (d + 1)

/-- Spec-side walk of a list: items in order, each followed by its
descendants. -/
def tocSpecItems : List TocItem → Nat → List Heading
  | [], _ => []
  | i :: r, d => tocSpecItem i d ++ tocSpecItems r d

end

/-! ## Helper lemmas about one materialization run -/

/-- One `nodeStep` preserves the invariant that the pushed paths are exactly the
successful resolver results, in call order. -/
theorem nodeStep_paths (r : MediaPayload → Option String) (kind : BlockKind) (hc : Bool)
    (a b : MatRes) (ha : a.1 = a.2.1.filterMap r) (hb : b.1 = b.2.1.filterMap r) :
    (nodeStep r kind hc a b).1 = ((nodeStep r kind hc a b).2.1).filterMap r := by
  obtain ⟨pa, ca, resa⟩ := a
  obtain ⟨pb, cb, resb⟩ := b
  simp only at ha hb
  subst ha hb
  cases hc <;> cases resa <;> cases resb <;> cases kind <;>
    simp [nodeStep, List.filterMap_append]
  all_goals (rename_i m; cases hm : r m <;> simp [hm])

/-- The image paths a drain of `listBlocks` pushes are exactly the successful
resolver results, in call order — a failed resolution contributes nothing. -/
theorem matList_paths_filterMap (r : MediaPayload → Option String) (entries : List RawBlock) :
    (matList r entries).1 = ((matList r entries).2.1).filterMap r := by
  induction entries using matList.induct r with
  | case1 => simp [matList]
  | case2 rest ih => simpa [matList] using ih
  | case3 msg rest => simp [matList]
  | case4 kind hc cs rest ih1 ih2 =>
    rw [matList]
    exact nodeStep_paths r kind hc _ _ ih1 ih2

/-- On a failure-free listing, a drain of `listBlocks` is fully characterized:
the resolver is called on `callsOf`, the pushes are its successes, and the
yielded tree is the pure rewrite `rewriteList`. -/
theorem matList_eq_spec (r : MediaPayload → Option String) (entries : List RawBlock)
    (h : noFailB entries = true) :
    matList r entries =
      ((callsOf entries).filterMap r, callsOf entries, .ok (rewriteList r entries)) := by
  induction entries using matList.induct r with
  | case1 => simp [matList, callsOf, rewriteList]
  | case2 rest ih =>
    rw [noFailB] at h
    simpa [matList, callsOf, rewriteList] using ih h
  | case3 msg rest => simp [noFailB] at h
  | case4 kind hc cs rest ih1 ih2 =>
    rw [noFailB, Bool.and_eq_true, Bool.or_eq_true] at h
    obtain ⟨hcs, hrest⟩ := h
    rw [matList, ih2 hrest]
    cases hc with
    | false =>
      cases kind with
      | image m =>
        cases hm : r m <;>
          simp [nodeStep, callsOf, rewriteList, hm, List.filterMap_append]
      | video m => simp [nodeStep, callsOf, rewriteList]
      | other s => simp [nodeStep, callsOf, rewriteList]
    | true =>
      rcases hcs with hcs | hcs
      · simp at hcs
      rw [ih1 hcs]
      cases kind with
      | image m =>
        cases hm : r m <;>
          simp [nodeStep, callsOf, rewriteList, hm, List.filterMap_append]
      | video m => simp [nodeStep, callsOf, rewriteList, List.filterMap_append]
      | other s => simp [nodeStep, callsOf, rewriteList, List.filterMap_append]

/-- With no image block in the traversal, the asset resolver receives no
call. -/
theorem callsOf_eq_nil_of_noImages (entries : List RawBlock)
    (h : noImagesB entries = true) : callsOf entries = [] := by
  induction entries using callsOf.induct with
  | case1 => simp [callsOf]
  | case2 rest ih =>
    rw [noImagesB] at h
    simpa [callsOf] using ih h
  | case3 msg rest => simp [callsOf]
  | case4 kind hc cs rest ihcs ihrest =>
    cases kind with
    | image m => simp [noImagesB] at h
    | video m =>
      cases hc with
      | false =>
        simp [noImagesB] at h
        simp [callsOf, ihrest h]
      | true =>
        simp [noImagesB] at h
        simp [callsOf, ihcs h.1, ihrest h.2]
    | other s =>
      cases hc with
      | false =>
        simp [noImagesB] at h
        simp [callsOf, ihrest h]
      | true =>
        simp [noImagesB] at h
        simp [callsOf, ihcs h.1, ihrest h.2]

/-- A media-free traversal is image-free. -/
theorem noImagesB_of_noMediaB (entries : List RawBlock)
    (h : noMediaB entries = true) : noImagesB entries = true := by
  induction entries using noMediaB.induct with
  | case1 => simp [noImagesB]
  | case2 rest ih =>
    rw [noMediaB] at h
    simpa [noImagesB] using ih h
  | case3 msg rest ih =>
    rw [noMediaB] at h
    simpa [noImagesB] using ih h
  | case4 kind hc cs rest ihcs ihrest =>
    cases kind with
    | image m => simp [noMediaB] at h
    | video m => simp [noMediaB] at h
    | other s =>
      cases hc with
      | false =>
        simp [noMediaB] at h
        simp [noImagesB, ihrest h]
      | true =>
        simp [noMediaB] at h
        simp [noImagesB, ihcs h.1, ihrest h.2]

/-- When no traversed image block declares children, the call order coincides
with depth-first pre-order document order. -/
theorem callsOf_eq_preCallsOf (entries : List RawBlock)
    (h : imagesChildlessB entries = true) : callsOf entries = preCallsOf entries := by
  induction entries using imagesChildlessB.induct with
  | case1 => simp [callsOf, preCallsOf]
  | case2 rest ih =>
    rw [imagesChildlessB] at h
    simpa [callsOf, preCallsOf] using ih h
  | case3 msg rest ih => simp [callsOf, preCallsOf]
  | case4 kind hc cs rest ihcs ihrest =>
    cases kind with
    | image m =>
      cases hc with
      | false =>
        simp [imagesChildlessB] at h
        simp [callsOf, preCallsOf, ihrest h]
      | true => simp [imagesChildlessB] at h
    | video m =>
      cases hc with
      | false =>
        simp [imagesChildlessB] at h
        simp [callsOf, preCallsOf, ihrest h]
      | true =>
        simp [imagesChildlessB] at h
        simp [callsOf, preCallsOf, ihcs h.1, ihrest h.2]
    | other s =>
      cases hc with
      | false =>
        simp [imagesChildlessB] at h
        simp [callsOf, preCallsOf, ihrest h]
      | true =>
        simp [imagesChildlessB] at h
        simp [callsOf, preCallsOf, ihcs h.1, ihrest h.2]

/-- A listing of placeholders only is skipped entirely: nothing pushed, no
resolver call, no yielded block. -/
theorem matList_of_allPlaceholder (r : MediaPayload → Option String) (cs : List RawBlock)
    (h : allPlaceholderB cs = true) : matList r cs = ([], [], .ok []) := by
  induction cs using allPlaceholderB.induct with
  | case1 => simp [matList]
  | case2 rest ih =>
    rw [allPlaceholderB] at h
    simpa [matList] using ih h
  | case3 x hne => simp [allPlaceholderB] at h

/-! ## Helper lemmas about the outline extractor -/

/-- The slug derivation `href.slice(1)` strips exactly the fragment marker. -/
theorem hash_drop (s : String) : ("#" ++ s).drop 1 = s := by
  have h : ("#" ++ s).data = '#' :: s.data := by simp
  apply String.ext
  rw [String.data_drop, h]
  simp

/-- Reduction of `Except` do-notation: binding a raised error. -/
theorem Except_error_bind {e a b : Type} (x : e) (f : a → Except e b) :
    (Except.error x >>= f : Except e b) = Except.error x := rfl

/-- Reduction of `Except` do-notation: binding a success. -/
theorem Except_ok_bind {e a b : Type} (x : a) (f : a → Except e b) :
    (Except.ok x >>= f : Except e b) = f x := rfl

mutual

/-- The list walk can only raise the implicit `TypeError`, never the explicit
structure check. -/
theorem listToTree_err (ol : HNode) (d : Nat) (e : TocErr)
    (h : listToTree ol d = .error e) : e = .jsTypeError := by
  cases ol with
  | text v =>
    unfold listToTree at h
    simp at h
    exact h.symm
  | element t href cs =>
    unfold listToTree at h
    exact itemsToTree_err cs d e h

/-- The flat-map over items can only raise the implicit `TypeError`. -/
theorem itemsToTree_err (lis : List HNode) (d : Nat) (e : TocErr)
    (h : itemsToTree lis d = .error e) : e = .jsTypeError := by
  cases lis with
  | nil =>
    unfold itemsToTree at h
    exact absurd h (by simp)
  | cons li rest =>
    unfold itemsToTree at h
    cases hli : itemToTree li d with
    | error e1 =>
      rw [hli, Except_error_bind] at h
      exact (Except.error.inj h) ▸ itemToTree_err li d e1 hli
    | ok hs =>
      rw [hli, Except_ok_bind] at h
      cases hrest : itemsToTree rest d with
      | error e2 =>
        rw [hrest, Except_error_bind] at h
        exact (Except.error.inj h) ▸ itemsToTree_err rest d e2 hrest
      | ok tl =>
        rw [hrest, Except_ok_bind] at h
        simp at h

/-- One item's walk can only raise the implicit `TypeError`. -/
theorem itemToTree_err (li : HNode) (d : Nat) (e : TocErr)
    (h : itemToTree li d = .error e) : e = .jsTypeError := by
  cases li with
  | text v =>
    unfold itemToTree at h
    simp at h
    exact h.symm
  | element t href cs =>
    cases cs with
    | nil =>
      unfold itemToTree at h
      simp at h
      exact h.symm
    | cons link rest =>
      cases link with
      | text v =>
        unfold itemToTree at h
        simp at h
        exact h.symm
      | element lt lhref lcs =>
        unfold itemToTree at h
        (try dsimp only at h)
        cases hl : lcs.head? with
        | none =>
          rw [hl] at h
          simp at h
          exact h.symm
        | some c0 =>
          rw [hl] at h
          (try dsimp only at h)
          cases lhref with
          | none =>
            simp at h
            exact h.symm
          | some hr =>
            (try dsimp only at h)
            cases rest with
            | nil =>
              simp at h
            | cons sl tl =>
              (try dsimp only at h)
              cases hsl : listToTree sl (d + 1) with
              | error e3 =>
                rw [hsl, Except_error_bind] at h
                exact (Except.error.inj h) ▸ listToTree_err sl (d + 1) e3 hsl
              | ok hs =>
                rw [hsl, Except_ok_bind] at h
                simp at h

end

mutual

/-- The code's walk of one encoded item equals the spec-side walk. -/
theorem itemToTree_encode (i : TocItem) (d : Nat) :
    itemToTree (encodeItem i) d = .ok (tocSpecItem i d) := by
  cases i with
  | mk t s sub =>
    cases sub with
    | none =>
      unfold encodeItem itemToTree tocSpecItem
      simp [hash_drop]
    | some its =>
      unfold encodeItem itemToTree
      dsimp only
      unfold listToTree
      rw [itemsToTree_encode its (d + 1)]
      simp [hash_drop, Except_ok_bind, tocSpecItem]

/-- The code's walk of an encoded item list equals the spec-side walk. -/
theorem itemsToTree_encode (l : List TocItem) (d : Nat) :
    itemsToTree (encodeItems l) d = .ok (tocSpecItems l d) := by
  cases l with
  | nil =>
    unfold encodeItems itemsToTree tocSpecItems
    rfl
  | cons i r =>
    unfold encodeItems itemsToTree tocSpecItems
    rw [itemToTree_encode i d, Except_ok_bind, itemsToTree_encode r d, Except_ok_bind]

end

/-! ## Helper lemmas about the renderer -/

/-- After a render, the instance field `#imagePaths` holds its previous
content followed by this run's pushes, whatever the outcome. -/
theorem render_state (r : MediaPayload → Option String) (pid pname : String)
    (pf : List Block → Except String (String × List Heading))
    (entries : List RawBlock) (st : List String) :
    (render r pid pname pf entries st).2.1 = st ++ (matList r entries).1 := by
  unfold render
  rcases hm : matList r entries with ⟨p, c, res⟩
  cases res with
  | error e => simp
  | ok bs =>
    cases hpf : pf bs with
    | error e => simp [hpf]
    | ok pr =>
      obtain ⟨h1, h2⟩ := pr
      simp [hpf]

/-- A successful render returns, as `imagePaths`, the instance field content:
prior pushes followed by this run's pushes. -/
theorem render_some_imagePaths (r : MediaPayload → Option String) (pid pname : String)
    (pf : List Block → Except String (String × List Heading))
    (entries : List RawBlock) (st : List String) (o : Rendered)
    (h : (render r pid pname pf entries st).1 = some o) :
    o.imagePaths = st ++ (matList r entries).1 := by
  unfold render at h
  rcases hm : matList r entries with ⟨p, c, res⟩
  rw [hm] at h
  dsimp only at h
  cases res with
  | error e => simp at h
  | ok bs =>
    dsimp only at h
    cases hpf : pf bs with
    | error e =>
      rw [hpf] at h
      simp at h
    | ok pr =>
      obtain ⟨h1, h2⟩ := pr
      rw [hpf] at h
      simp at h
      rw [← h]

/-! ## Claim theorems -/

/-- C1: the claim demands that each `process` call of one built processor has
its own capture slot. The code instead closes one `headings` cell over all
calls: under the legal interleaving where call A's pipeline runs, then call
B's pipeline runs, then A resumes and reads the cell, A returns B's outline —
B's headings, not those derived from A's own block tree. This evaluates the
shared-cell model at that failing schedule. -/
theorem C1_shared_capture_leak :
    validSched [.runA, .runB, .retA, .retB] = true ∧
    (pexec [⟨0, "A", "a"⟩] [⟨0, "B", "b"⟩] [.runA, .runB, .retA, .retB]).resA =
      some [⟨0, "B", "b"⟩] ∧
    ([⟨0, "B", "b"⟩] : List Heading) ≠ [⟨0, "A", "a"⟩] := by
  refine ⟨by decide, by decide, by decide⟩

/-- C2 (counterexample): an image block with `has_children = true` whose child
subtree also holds an image. The source lists (and resolves) the children
*before* fetching the parent's own image, so the push order is
`["b.png", "a.png"]`, while depth-first pre-order document order of the
successful resolutions is `["a.png", "b.png"]`. The listing is failure-free,
so this is a legitimate block tree. -/
theorem C2_counterexample :
    noFailB [.node (.image ⟨.external, "A", "fA", "capA"⟩) true
      [.node (.image ⟨.file, "B", "fB", "capB"⟩) false []]] = true ∧
    (matList
      (fun m => match m.tag with | .external => some "a.png" | .file => some "b.png")
      [.node (.image ⟨.external, "A", "fA", "capA"⟩) true
        [.node (.image ⟨.file, "B", "fB", "capB"⟩) false []]]).1 = ["b.png", "a.png"] ∧
    (preCallsOf [.node (.image ⟨.external, "A", "fA", "capA"⟩) true
      [.node (.image ⟨.file, "B", "fB", "capB"⟩) false []]]).filterMap
      (fun m => match m.tag with | .external => some "a.png" | .file => some "b.png") =
      ["a.png", "b.png"] ∧
    (["b.png", "a.png"] : List String) ≠ ["a.png", "b.png"] := by
  refine ⟨by simp [noFailB], by simp [matList, nodeStep], by simp [preCallsOf], by simp⟩

/-- C2 (amended): `imagePaths` contains exactly the references returned by
successful resolver calls, in the order the resolutions happen — no failed
resolution contributes an entry; that order visits a block's descendants
before the block's own image, and coincides with depth-first pre-order
document order whenever no image block declares children. -/
theorem C2_imagePaths_order (r : MediaPayload → Option String) (entries : List RawBlock) :
    (matList r entries).1 = ((matList r entries).2.1).filterMap r ∧
    (noFailB entries = true → imagesChildlessB entries = true →
      (matList r entries).1 = (preCallsOf entries).filterMap r) := by
  refine ⟨matList_paths_filterMap r entries, fun hnf hic => ?_⟩
  rw [matList_eq_spec r entries hnf, callsOf_eq_preCallsOf entries hic]

/-- C2 witness: the amended order statement at a concrete childless image. -/
theorem C2_imagePaths_order_witness :
    (matList (fun _ => some "w.png") [.node (.image ⟨.external, "W", "fW", "c"⟩) false []]).1 =
      (preCallsOf [.node (.image ⟨.external, "W", "fW", "c"⟩) false []]).filterMap
        (fun _ => some "w.png") :=
  (C2_imagePaths_order (fun _ => some "w.png")
      [.node (.image ⟨.external, "W", "fW", "c"⟩) false []]).2
    (by simp [noFailB]) (by simp [imagesChildlessB])

/-- C3: `#imagePaths` is an instance field that `render` never clears and
`#fetchImage` only appends to: across two successful `render` calls on the
same renderer instance, the second call's returned `imagePaths` extends the
first call's by this run's pushes. -/
theorem C3_imagePaths_append (r : MediaPayload → Option String) (pid pname : String)
    (pf1 pf2 : List Block → Except String (String × List Heading))
    (e1 e2 : List RawBlock) (o1 o2 : Rendered)
    (h1 : (render r pid pname pf1 e1 []).1 = some o1)
    (h2 : (render r pid pname pf2 e2 (render r pid pname pf1 e1 []).2.1).1 = some o2) :
    ∃ t, o2.imagePaths = o1.imagePaths ++ t := by
  have s1 := render_state r pid pname pf1 e1 []
  have i1 := render_some_imagePaths r pid pname pf1 e1 [] o1 h1
  have i2 := render_some_imagePaths r pid pname pf2 e2 _ o2 h2
  refine ⟨(matList r e2).1, ?_⟩
  rw [i2, s1, i1]

/-- C3 witness: two concrete renders of a one-image page on one instance; the
second call's `imagePaths` has the first call's as a prefix. -/
theorem C3_imagePaths_append_witness :
    ∃ t, (Rendered.mk "h" [] ["w.png", "w.png"]).imagePaths =
      (Rendered.mk "h" [] ["w.png"]).imagePaths ++ t :=
  C3_imagePaths_append (fun _ => some "w.png") "p1" "n"
    (fun _ => .ok ("h", [])) (fun _ => .ok ("h", []))
    [.node (.image ⟨.external, "W", "fW", "c"⟩) false []]
    [.node (.image ⟨.external, "W", "fW", "c"⟩) false []]
    ⟨"h", [], ["w.png"]⟩ ⟨"h", [], ["w.png", "w.png"]⟩
    (by simp [render, matList, nodeStep])
    (by simp [render, matList, nodeStep])

/-- C4 (counterexample): a navigation container wrapping *two* top-level lists
is not of the expected shape ("exactly one top-level list"), yet the code does
not fail: it silently extracts the first list and ignores the second. -/
theorem C4_counterexample :
    extractTocHeadings (.element "nav" none
      [.element "ol" none [.element "li" none [.element "a" (some "#a") [.text "A"]]],
       .element "ol" none [.element "li" none [.element "a" (some "#b") [.text "B"]]]]) =
      .ok [⟨0, "A", "a"⟩] := by
  have h0 : itemsToTree [] 0 = .ok [] := by
    unfold itemsToTree
    rfl
  have hdrop : ("#a" : String).drop 1 = "a" := by decide
  unfold extractTocHeadings listToTree itemsToTree itemToTree
  simp [h0, hdrop, Except_ok_bind]

/-- C4 (amended): the explicit structure check guards only the root container:
`extractTocHeadings` raises the `Expected nav` structure error exactly when
the root's tag name is not `nav`; the "exactly one top-level list" part of the
expected shape is not enforced (extra lists are silently ignored, extraction
reading only the first child), and every `nav` whose first child is a
well-formed list yields its heading records without raising. -/
theorem C4_nav_check :
    (∀ toc : HNode,
      (∃ msg, extractTocHeadings toc = .error (.shapeErr msg)) ↔ rootTag toc ≠ some "nav") ∧
    (∀ (its : List TocItem) (href : Option String) (extra : List HNode),
      extractTocHeadings
        (.element "nav" href (.element "ol" none (encodeItems its) :: extra)) =
        .ok (tocSpecItems its 0)) := by
  constructor
  · intro toc
    cases toc with
    | text v =>
      refine ⟨fun _ => by simp [rootTag], fun _ => ⟨"Expected nav, got undefined", rfl⟩⟩
    | element t hr cs =>
      by_cases ht : t = "nav"
      · subst ht
        simp only [rootTag, ne_eq, not_true_eq_false, iff_false, not_exists]
        intro msg hmsg
        unfold extractTocHeadings at hmsg
        simp only [if_pos rfl] at hmsg
        cases hcs : cs.head? with
        | none =>
          rw [hcs] at hmsg
          simp at hmsg
        | some ol =>
          rw [hcs] at hmsg
          exact absurd (listToTree_err ol 0 _ hmsg) (by simp)
      · constructor
        · intro _
          simp [rootTag, ht]
        · intro _
          exact ⟨"Expected nav, got " ++ t, by simp [extractTocHeadings, ht]⟩
  · intro its href extra
    unfold extractTocHeadings
    simp only [if_pos rfl, List.head?_cons]
    unfold listToTree
    exact itemsToTree_encode its 0

/-- C4 witness: the amended failure condition at a concrete non-`nav` root. -/
theorem C4_nav_check_witness :
    ∃ msg, extractTocHeadings (.element "div" none []) = .error (.shapeErr msg) :=
  (C4_nav_check.1 (.element "div" none [])).mpr (by simp [rootTag])

/-- C6: for every navigation tree of the expected shape, the code's extraction
equals the spec-side pre-order walk (each item's record, then its descendants
at depth + 1, then its siblings; text from the link text, slug from the link
target with the fragment prefix stripped); in particular the nesting produced
for heading levels `[1, 2, 2, 1]` yields depths `[0, 1, 1, 0]`. -/
theorem C6_toc_preorder :
    (∀ its : List TocItem, extractTocHeadings (encodeNav its) = .ok (tocSpecItems its 0)) ∧
    (tocSpecItems
        [.mk "Overview" "overview" (some [.mk "Details" "details" none, .mk "More" "more" none]),
         .mk "Wrap" "wrap" none] 0).map Heading.depth = [0, 1, 1, 0] ∧
    extractTocHeadings (encodeNav
        [.mk "Overview" "overview" (some [.mk "Details" "details" none, .mk "More" "more" none]),
         .mk "Wrap" "wrap" none]) =
      .ok [⟨0, "Overview", "overview"⟩, ⟨1, "Details", "details"⟩,
           ⟨1, "More", "more"⟩, ⟨0, "Wrap", "wrap"⟩] := by
  have main : ∀ its : List TocItem,
      extractTocHeadings (encodeNav its) = .ok (tocSpecItems its 0) := by
    intro its
    unfold encodeNav extractTocHeadings
    simp only [if_pos rfl, List.head?_cons]
    unfold listToTree
    exact itemsToTree_encode its 0
  refine ⟨main, by simp [tocSpecItems, tocSpecItem], ?_⟩
  rw [main]
  simp [tocSpecItems, tocSpecItem]

/-- C5: when the asset resolver fails on every call, each image block is
yielded with the `fileToUrl` fallback — its original remote URL — as payload
reference, nothing is pushed onto `#imagePaths`, and (the pipeline succeeding)
the render still succeeds with an empty `imagePaths`. -/
theorem C5_resolver_always_fails (pid pname : String)
    (pf : List Block → Except String (String × List Heading))
    (entries : List RawBlock) (html : String) (hds : List Heading)
    (hnf : noFailB entries = true)
    (hpf : pf (rewriteList (fun _ => none) entries) = .ok (html, hds)) :
    matList (fun _ => none) entries =
      ([], callsOf entries, .ok (rewriteList (fun _ => none) entries)) ∧
    (∀ (m : MediaPayload) (hc : Bool) (cs rest : List RawBlock),
      rewriteList (fun _ => none) (.node (.image m) hc cs :: rest) =
        .image ⟨m.tag, fileToUrl m, m.caption⟩ :: rewriteList (fun _ => none) rest) ∧
    render (fun _ => none) pid pname pf entries [] =
      (some ⟨html, hds, []⟩, [],
        [⟨pageLabel pid pname, "Rendering"⟩, ⟨pageLabel pid pname, "Rendered"⟩]) := by
  have hm := matList_eq_spec (fun _ => none) entries hnf
  have hnil : (callsOf entries).filterMap (fun _ => (none : Option String)) = [] := by
    simp
  rw [hnil] at hm
  refine ⟨hm, ?_, ?_⟩
  · intro m hc cs rest
    simp [rewriteList]
  · unfold render
    rw [hm]
    dsimp only
    rw [hpf]
    simp

/-- C5 witness: one image block, an always-failing resolver, a succeeding
pipeline: the block falls back to its remote URL and `imagePaths` is empty. -/
theorem C5_resolver_always_fails_witness :
    render (fun _ => none) "p" "n" (fun _ => .ok ("h", []))
        [.node (.image ⟨.external, "u", "fu", "cap"⟩) false []] [] =
      (some ⟨"h", [], []⟩, [],
        [⟨pageLabel "p" "n", "Rendering"⟩, ⟨pageLabel "p" "n", "Rendered"⟩]) :=
  (C5_resolver_always_fails "p" "n" (fun _ => .ok ("h", []))
      [.node (.image ⟨.external, "u", "fu", "cap"⟩) false []] "h" []
      (by simp [noFailB]) (by simp)).2.2

/-- C7: the asset resolver is never invoked on an image-free tree (videos and
others included); a video block is rewritten directly from the source fields
into the normalized tagged shape — `external.url` under the `external` tag,
`file.url` otherwise — with its caption preserved; an image block, by
contrast, hands its payload to the resolver. -/
theorem C7_video_no_resolver (r : MediaPayload → Option String) (entries : List RawBlock)
    (m : MediaPayload)
    (hnf : noFailB entries = true) (hni : noImagesB entries = true) :
    (matList r entries).2.1 = [] ∧
    matList r [.node (.video m) false []] =
      ([], [], .ok [.video ⟨m.tag, mediaUrl m, m.caption⟩]) ∧
    (∀ (hc : Bool) (cs rest : List RawBlock),
      rewriteList r (.node (.video m) hc cs :: rest) =
        .video ⟨m.tag, mediaUrl m, m.caption⟩ :: rewriteList r rest) ∧
    (m.tag = .external → mediaUrl m = m.externalUrl) ∧
    (m.tag = .file → mediaUrl m = m.fileUrl) ∧
    (matList r [.node (.image m) false []]).2.1 = [m] := by
  refine ⟨?_, ?_, ?_, ?_, ?_, ?_⟩
  · rw [matList_eq_spec r entries hnf]
    simp [callsOf_eq_nil_of_noImages entries hni]
  · simp [matList, nodeStep]
  · intro hc cs rest
    simp [rewriteList]
  · intro h
    simp [mediaUrl, h]
  · intro h
    simp [mediaUrl, h]
  · cases hrm : r m <;> simp [matList, nodeStep, hrm]

/-- C7 witness: a video-only listing triggers no resolver call. -/
theorem C7_video_no_resolver_witness :
    (matList (fun _ => some "x")
      [.node (.video ⟨.external, "v", "fv", "c"⟩) false []]).2.1 = [] :=
  (C7_video_no_resolver (fun _ => some "x")
      [.node (.video ⟨.external, "v", "fv", "c"⟩) false []]
      ⟨.external, "v", "fv", "c"⟩ (by simp [noFailB]) (by simp [noImagesB])).1

/-- C8: `render` is a total boundary: a listing failure or a pipeline failure
is caught, logged on the page's labelled logger, and turned into the absent
result; on success it returns the combined
`{html, metadata: {headings, imagePaths}}` output. -/
theorem C8_render_boundary (r : MediaPayload → Option String) (pid pname : String)
    (pf : List Block → Except String (String × List Heading))
    (entries : List RawBlock) (st : List String) :
    (∀ e, (matList r entries).2.2 = .error e →
      render r pid pname pf entries st =
        (none, st ++ (matList r entries).1,
          [⟨pageLabel pid pname, "Rendering"⟩,
           ⟨pageLabel pid pname, "Failed to render: " ++ e⟩])) ∧
    (∀ bs e, (matList r entries).2.2 = .ok bs → pf bs = .error e →
      render r pid pname pf entries st =
        (none, st ++ (matList r entries).1,
          [⟨pageLabel pid pname, "Rendering"⟩,
           ⟨pageLabel pid pname, "Failed to render: " ++ e⟩])) ∧
    (∀ bs html hds, (matList r entries).2.2 = .ok bs → pf bs = .ok (html, hds) →
      render r pid pname pf entries st =
        (some ⟨html, hds, st ++ (matList r entries).1⟩, st ++ (matList r entries).1,
          [⟨pageLabel pid pname, "Rendering"⟩, ⟨pageLabel pid pname, "Rendered"⟩])) := by
  rcases hm : matList r entries with ⟨p, c, res⟩
  refine ⟨?_, ?_, ?_⟩
  · intro e he
    simp only [hm] at he ⊢
    subst he
    unfold render
    rw [hm]
  · intro bs e hbs hpf
    simp only [hm] at hbs ⊢
    subst hbs
    unfold render
    rw [hm]
    dsimp only
    rw [hpf]
  · intro bs html hds hbs hpf
    simp only [hm] at hbs ⊢
    subst hbs
    unfold render
    rw [hm]
    dsimp only
    rw [hpf]

/-- C8 witness: a listing that throws at once yields the absent result and the
labelled failure log line. -/
theorem C8_render_boundary_witness :
    render (fun _ => some "x") "p" "n" (fun _ => .ok ("h", [])) [.failHere "boom"] [] =
      (none, [],
        [⟨pageLabel "p" "n", "Rendering"⟩,
         ⟨pageLabel "p" "n", "Failed to render: " ++ "boom"⟩]) := by
  have h := (C8_render_boundary (fun _ => some "x") "p" "n" (fun _ => .ok ("h", []))
      [.failHere "boom"] []).1 "boom" (by simp [matList])
  simpa [matList] using h

/-- C9: a render of a media-free tree (no image, no video) never invokes the
asset resolver and produces an empty `imagePaths`, whatever the pipeline
does. -/
theorem C9_no_media (r : MediaPayload → Option String) (pid pname : String)
    (pf : List Block → Except String (String × List Heading))
    (entries : List RawBlock)
    (hnf : noFailB entries = true) (hnm : noMediaB entries = true) :
    (matList r entries).2.1 = [] ∧
    (render r pid pname pf entries []).2.1 = [] ∧
    (∀ o, (render r pid pname pf entries []).1 = some o → o.imagePaths = []) := by
  have hni := noImagesB_of_noMediaB entries hnm
  have hcalls := callsOf_eq_nil_of_noImages entries hni
  have hm := matList_eq_spec r entries hnf
  refine ⟨?_, ?_, ?_⟩
  · rw [hm]
    simp [hcalls]
  · rw [render_state, hm]
    simp [hcalls]
  · intro o ho
    rw [render_some_imagePaths r pid pname pf entries [] o ho, hm]
    simp [hcalls]

/-- C9 witness: a single paragraph-like block: no resolver call, empty
`imagePaths`. -/
theorem C9_no_media_witness :
    (matList (fun _ => some "x") [.node (.other "paragraph") false []]).2.1 = [] ∧
    (render (fun _ => some "x") "p" "n" (fun _ => .ok ("h", []))
      [.node (.other "paragraph") false []] []).2.1 = [] :=
  ⟨(C9_no_media (fun _ => some "x") "p" "n" (fun _ => .ok ("h", []))
      [.node (.other "paragraph") false []]
      (by simp [noFailB]) (by simp [noMediaB])).1,
   (C9_no_media (fun _ => some "x") "p" "n" (fun _ => .ok ("h", []))
      [.node (.other "paragraph") false []]
      (by simp [noFailB]) (by simp [noMediaB])).2.1⟩

/-- C10 (counterexample): an *image* block with `has_children = true` whose
children are all placeholders. The rewrite replaces the payload object
wholesale, so the yielded block carries no child sequence at all — `none`,
not `some []` — contradicting the claim for media-kind blocks. -/
theorem C10_counterexample :
    (matList (fun _ => some "local.png")
      [.node (.image ⟨.external, "u", "fu", "cap"⟩) true [.placeholder]]).2.2 =
      .ok [.image ⟨.external, "local.png", "cap"⟩] ∧
    Block.childrenOf (.image ⟨.external, "local.png", "cap"⟩) = none := by
  constructor
  · simp [matList, nodeStep]
  · rfl

/-- C10 (amended): for every *non-media* source block with
`has_children = true` all of whose listed children are placeholders, the
materializer yields the block with an empty child sequence attached
(`some []`, not `none`); for media blocks the payload rewrite drops the
attached child sequence. -/
theorem C10_empty_children (r : MediaPayload → Option String) (s : String)
    (cs : List RawBlock) (h : allPlaceholderB cs = true) :
    matList r [.node (.other s) true cs] = ([], [], .ok [.other s (some [])]) ∧
    (matList r [.node (.other s) true cs]).2.2.map (fun bs => bs.map Block.childrenOf) =
      .ok [some []] := by
  have hstep : matList r [.node (.other s) true cs] = ([], [], .ok [.other s (some [])]) := by
    rw [matList, matList_of_allPlaceholder r cs h, matList]
    simp [nodeStep]
  refine ⟨hstep, ?_⟩
  rw [hstep]
  rfl

/-- C10 witness: the amended statement at a concrete paragraph-like block with
one placeholder child. -/
theorem C10_empty_children_witness :
    matList (fun _ => some "x") [.node (.other "toggle") true [.placeholder]] =
      ([], [], .ok [.other "toggle" (some [])]) :=
  (C10_empty_children (fun _ => some "x") "toggle" [.placeholder]
      (by simp [allPlaceholderB])).1

end NotionRender
